import Mathlib

/-!
Verification development for the LM-Proxy core: routing engine
(`lm_proxy/app.py`, `resolve_connection_and_model`), streaming response
bridge (`process_stream` / `make_chunk`), middleware chain
(`lm_proxy/middleware.py`), configuration environment substitution
(`lm_proxy/config.py`, `lm_proxy/utils.py`) and header/path utilities
(`lm_proxy/utils.py`).  Python data is shallowly embedded: dicts are
ordered association lists, exceptions are explicit error values,
`fnmatch.fnmatchcase` is a recursive glob matcher over character lists.
-/

namespace LMProxy

/-! ## Glob matching (`fnmatch.fnmatchcase`) -/

/-- Scan the body of a bracket set up to the closing `]`.  Returns the
collected member characters and the remaining pattern, or `none` when the
bracket is unterminated (CPython's `fnmatch.translate` then treats the
opening `[` as a literal character). -/
def scanSet : List Char → Option (List Char × List Char)
  | [] => none
  | c :: rest =>
    if c = ']' then some ([], rest)
    else (scanSet rest).map (fun p => (c :: p.1, p.2))

theorem scanSet_length {cs s r : List Char} (h : scanSet cs = some (s, r)) :
    r.length < cs.length := by
  induction cs generalizing s r with
  | nil => simp [scanSet] at h
  | cons c rest ih =>
    by_cases hc : c = ']'
    · simp [scanSet, hc] at h
      simp [← h.2]
    · simp only [scanSet, if_neg hc, Option.map_eq_some'] at h
      obtain ⟨⟨s', r'⟩, hp, he⟩ := h
      have := ih hp
      cases he
      simpa using Nat.lt_succ_of_lt this

/-- Parse a bracket set body with a given negation flag: a `]` directly
after the (possibly negated) opening is a literal member. -/
def parseBracketBody (neg : Bool) (cs : List Char) :
    Option (Bool × List Char × List Char) :=
  match cs with
  | ']' :: rest => (scanSet rest).map (fun p => (neg, ']' :: p.1, p.2))
  | rest => (scanSet rest).map (fun p => (neg, p.1, p.2))

/-- Parse the pattern after an opening `[`: an optional leading `!`
negates the set. -/
def parseBracket (cs : List Char) : Option (Bool × List Char × List Char) :=
  match cs with
  | '!' :: rest => parseBracketBody true rest
  | rest => parseBracketBody false rest

theorem parseBracketBody_length {neg : Bool} {cs : List Char}
    {n : Bool} {s r : List Char} (h : parseBracketBody neg cs = some (n, s, r)) :
    r.length < cs.length := by
  unfold parseBracketBody at h
  split at h
  · rename_i rest
    simp only [Option.map_eq_some'] at h
    obtain ⟨⟨s', r'⟩, hp, he⟩ := h
    cases he
    exact Nat.lt_succ_of_lt (scanSet_length hp)
  · simp only [Option.map_eq_some'] at h
    obtain ⟨⟨s', r'⟩, hp, he⟩ := h
    cases he
    exact scanSet_length hp

theorem parseBracket_length {cs : List Char}
    {n : Bool} {s r : List Char} (h : parseBracket cs = some (n, s, r)) :
    r.length < cs.length := by
  unfold parseBracket at h
  split at h
  · rename_i rest
    exact Nat.lt_succ_of_lt (parseBracketBody_length h)
  · exact parseBracketBody_length h

/-- Membership of a character in a bracket set body: `a-b` between two
characters is an inclusive range, a `-` at either end is a literal
member (as in `fnmatch.translate`). -/
def setMatches : List Char → Char → Bool
  | a :: '-' :: b :: rest, c =>
    (decide (a ≤ c) && decide (c ≤ b)) || setMatches rest c
  | a :: rest, c => (a == c) || setMatches rest c
  | [], _ => false

/-- Anchored, case-sensitive shell-glob matching of a pattern against a
name, both as character lists: `*` matches any (possibly empty) sequence,
`?` any single character, `[...]` / `[!...]` character sets; an
unterminated `[` is a literal. This is `fnmatch.fnmatchcase`'s semantics
(full-string match, no case folding). -/
def globMatch : List Char → List Char → Bool
  | [], s => s.isEmpty
  | p :: ps, s =>
    if p = '*' then
      globMatch ps s ||
        (match s with
         | [] => false
         | _ :: s2 => globMatch (p :: ps) s2)
    else if p = '?' then
      (match s with
       | [] => false
       | _ :: s2 => globMatch ps s2)
    else if p = '[' then
      (match hb : parseBracket ps with
       | some (neg, items, rest) =>
         (match s with
          | [] => false
          | c :: s2 => (neg != setMatches items c) && globMatch rest s2)
       | none =>
         (match s with
          | [] => false
          | c :: s2 => (p == c) && globMatch ps s2))
    else
      (match s with
       | [] => false
       | c :: s2 => (p == c) && globMatch ps s2)
  termination_by ps s => ps.length + s.length
  decreasing_by
  all_goals try (simp; try omega)
  all_goals (have hlen := parseBracket_length hb; simp at hlen ⊢; omega)

/-- `fnmatch.fnmatchcase(name, pat)`. -/
def fnmatchcase (name pat : String) : Bool :=
  globMatch pat.data name.data

/-! ## Routing engine (`lm_proxy/app.py`, `resolve_connection_and_model`) -/

/-- Python `s.split(sep, 1)` when the separator occurs in `s`; `none`
when it does not (where the source's tuple unpacking
`connection_name, model_part = rule.split(".", 1)` would raise). -/
def splitOnceAux (sep : Char) : List Char → Option (List Char × List Char)
  | [] => none
  | c :: rest =>
    if c = sep then some ([], rest)
    else (splitOnceAux sep rest).map (fun p => (c :: p.1, p.2))

def splitOnce (sep : Char) (s : String) : Option (String × String) :=
  (splitOnceAux sep s.data).map (fun p => (String.mk p.1, String.mk p.2))

/-- A single quote character, for building Python error/repr strings. -/
def sq : String := String.singleton (Char.ofNat 39)

/-- The part of `Config` that `resolve_connection_and_model` reads:
`config.connections` is a dict keyed by connection name (only the keys,
in insertion order, are consulted here) and `config.routing` is an
insertion-ordered dict from glob pattern to `"connection.model"` rule. -/
structure Config where
  connections : List String
  routing : List (String × String)

/-- The exceptions `resolve_connection_and_model` can raise.
`unknownConnection` and `noRouteMatched` are the two `ValueError`s
raised explicitly; `nameError` is Python's `NameError` (the source's
line `resolved_model = external_model if model_part == "*" else
rhs_model` references the unbound name `rhs_model`); `unpackError` is
the `ValueError` from unpacking a 1-element split result. -/
inductive RouteError where
  | unknownConnection (conn : String) (known : List String)
  | noRouteMatched (model : String)
  | nameError (name : String)
  | unpackError
deriving DecidableEq

/-- Python `sep.join(l)`. -/
def pyJoin (sep : String) : List String → String
  | [] => ""
  | [x] => x
  | x :: xs => x ++ sep ++ pyJoin sep xs

/-- The message of each error, as the source formats it
(`', '.join(config.connections.keys()) or '(none)'`). -/
def routeErrorMessage : RouteError → String
  | .unknownConnection conn known =>
    let joined := pyJoin ", " known
    "Routing selected unknown connection " ++ sq ++ conn ++ sq ++
      ". Defined connections: " ++ (if joined = "" then "(none)" else joined)
  | .noRouteMatched m =>
    "No routing rule matched model " ++ sq ++ m ++ sq ++
      ". Add a catch-all rule like \"*\" = \"openai.gpt-3.5-turbo\" if desired."
  | .nameError n => "name " ++ sq ++ n ++ sq ++ " is not defined"
  | .unpackError => "not enough values to unpack (expected 2, got 1)"

/-- The `for model_match, rule in config.routing.items()` loop of
`resolve_connection_and_model`, one rule at a time. -/
def resolveLoop (connections : List String) (external_model : String) :
    List (String × String) → Except RouteError (String × String)
  | [] => .error (.noRouteMatched external_model)
  | (model_match, rule) :: rest =>
    if fnmatchcase external_model model_match then
      match splitOnce '.' rule with
      | none => .error .unpackError
      | some (connection_name, model_part) =>
        if connections.contains connection_name then
          if model_part = "*" then .ok (connection_name, external_model)
          else .error (.nameError "rhs_model")
        else .error (.unknownConnection connection_name connections)
    else resolveLoop connections external_model rest

/-- `resolve_connection_and_model(config, external_model)`
(`lm_proxy/app.py`, lines 30-46), with exceptions as explicit errors. -/
def resolve_connection_and_model (config : Config) (external_model : String) :
    Except RouteError (String × String) :=
  resolveLoop config.connections external_model config.routing

/-- `sub` occurs as a substring of `s`. -/
def strContains (s sub : String) : Prop := ∃ a b, s = a ++ sub ++ b

/-! ## Streaming response bridge (`lm_proxy/app.py`, `process_stream`) -/

/-- A Python exception as observed by `process_stream`: its type name
and its `str()` message. -/
structure PyExc where
  typeName : String
  message : String
deriving DecidableEq

/-- The dynamically-typed value passed to `make_chunk`'s `error`
parameter: either an exception object, or (as at the `finally` call
site, line 138) the dict `{'message': str(e), 'type':
type(e).__name__}`. -/
inductive ErrVal where
  | exc (e : PyExc)
  | dictMT (message : String) (typeName : String)
deriving DecidableEq

/-- Python `str(v)` for an `ErrVal`: `str(exception)` is its message;
`str(dict)` is the dict repr (single-quoted keys and values). -/
def errValStr : ErrVal → String
  | .exc e => e.message
  | .dictMT m t =>
    "\x7b" ++ sq ++ "message" ++ sq ++ ": " ++ sq ++ m ++ sq ++ ", " ++
      sq ++ "type" ++ sq ++ ": " ++ sq ++ t ++ sq ++ "\x7d"

/-- Python `type(v).__name__` for an `ErrVal`. -/
def errValTypeName : ErrVal → String
  | .exc e => e.typeName
  | .dictMT _ _ => "dict"

/-- The `delta` object of an SSE chunk: `{'role': r}`, `{'content': s}`
or `{}`. -/
inductive Delta where
  | role (r : String)
  | content (s : String)
  | empty
deriving DecidableEq

/-- The JSON object serialized into one `data: ...` SSE frame by
`make_chunk`: `{"id", "object", "created", "choices": [{"index": 0,
"delta", "finish_reason"?}], "error"?}`.  `error` is the pair
`(message, type)`. -/
structure ChunkObj where
  id : String
  object : String
  created : Nat
  choiceIndex : Nat
  delta : Delta
  finish_reason : Option String
  error : Option (String × String)
deriving DecidableEq

/-- `make_chunk(delta, content, finish_reason, error)` from
`process_stream`'s closure (`lm_proxy/app.py`, lines 97-112):
`stream_id` and `created` are captured once at stream start. -/
def make_chunk (stream_id : String) (created : Nat) (delta : Option Delta)
    (content : Option String) (finish_reason : Option String)
    (error : Option ErrVal) : ChunkObj :=
  let delta :=
    match delta with
    | some d => d
    | none =>
      match content with
      | some c => Delta.content c
      | none => Delta.empty
  let errField := error.map (fun e => (errValStr e, errValTypeName e))
  let finish_reason :=
    match error, finish_reason with
    | some _, none => some "error"
    | _, fr => fr
  { id := stream_id, object := "chat.completion.chunk", created := created,
    choiceIndex := 0, delta := delta, finish_reason := finish_reason,
    error := errField }

/-- One emitted SSE frame: a `data: <json>` frame or the terminal
`data: [DONE]` sentinel. -/
inductive Frame where
  | data (c : ChunkObj)
  | done
deriving DecidableEq

/-- The upstream task's behaviour as observed through the callback/queue:
the chunks it pushed, in order, and the exception it raised afterwards,
if any. -/
structure UpstreamRun where
  chunks : List String
  failure : Option PyExc

/-- The frame sequence yielded by `process_stream` (`lm_proxy/app.py`,
lines 88-142).  The callback pushes chunks onto a strictly FIFO queue;
the `while not task.done()` polling loop yields some prefix of the
queued chunks (`k` of them — the timeout polling only decides this
split, never the order) and the drain loop yields the rest, so the
yielded sequence is deterministic up to `k`.  After the drain, the
`finally` block awaits the task and, on an exception `e`, yields an
error chunk — passing `make_chunk` the dict `{'message': str(e),
'type': type(e).__name__}` as its `error` argument (line 138) — and
then the stop chunk and the `[DONE]` sentinel are yielded. -/
def process_stream (stream_id : String) (created : Nat) (k : Nat)
    (run : UpstreamRun) : List Frame :=
  Frame.data (make_chunk stream_id created (some (Delta.role "assistant")) none none none)
    :: ((run.chunks.take k).map
          (fun c => Frame.data (make_chunk stream_id created none (some c) none none))
        ++ (run.chunks.drop k).map
          (fun c => Frame.data (make_chunk stream_id created none (some c) none none))
        ++ (match run.failure with
            | some e =>
              [Frame.data (make_chunk stream_id created none none none
                (some (ErrVal.dictMT e.message e.typeName)))]
            | none => [])
        ++ [Frame.data (make_chunk stream_id created none none (some "stop") none),
            Frame.done])

/-! ## Middleware chain (`lm_proxy/middleware.py`) -/

/-- `run_middleware_chain(middlewares, ctx, handler)`
(`lm_proxy/middleware.py`, lines 19-38): the chain starts as the
terminal handler and is wrapped by each middleware in reverse order, so
invoking the result runs middlewares in declared order.  A middleware
receives the context and its continuation; computations live in an
arbitrary monad `M` (the source's `Awaitable[None]`). -/
def run_middleware_chain {M : Type → Type} {Ctx : Type}
    (middlewares : List (Ctx → M Unit → M Unit)) (ctx : Ctx)
    (handler : M Unit) : M Unit :=
  if middlewares.isEmpty then handler
  else middlewares.reverse.foldl (fun chain mw => mw ctx chain) handler

/-- Observable events of a middleware-chain run: middleware `i` was
invoked, or the terminal handler ran. -/
inductive ChainEvent where
  | enter (i : Nat)
  | terminal
deriving DecidableEq

/-- Effectful computations for exercising the chain: a state monad
accumulating the list of events in execution order. -/
abbrev TraceM := StateM (List ChainEvent)

def emitEvent (e : ChainEvent) : TraceM Unit :=
  modify (fun tr => tr ++ [e])

/-- A terminal handler that records its execution (the "side-effect
counter" of the claim: its count in the trace). -/
def terminalHandler : TraceM Unit :=
  emitEvent ChainEvent.terminal

/-- A middleware that records its invocation and then either invokes its
continuation (`callsNext = true`) or returns without invoking it. -/
def mwOf (i : Nat) (callsNext : Bool) : Unit → TraceM Unit → TraceM Unit :=
  fun _ k => do
    emitEvent (ChainEvent.enter i)
    if callsNext then k else pure ()

/-- The middleware list described by `bs`, numbered from `i`. -/
def mwList (i : Nat) : List Bool → List (Unit → TraceM Unit → TraceM Unit)
  | [] => []
  | b :: bs => mwOf i b :: mwList (i + 1) bs

/-- The trace produced by running the chain built from `bs`. -/
def chainTrace (bs : List Bool) : List ChainEvent :=
  ((run_middleware_chain (mwList 0 bs) () terminalHandler).run []).2

/-- The expected trace: middlewares enter in declared order up to and
including the first one that does not call its continuation; the
terminal handler runs only if every middleware calls its
continuation. -/
def expectedTrace (i : Nat) : List Bool → List ChainEvent
  | [] => [ChainEvent.terminal]
  | b :: bs => ChainEvent.enter i :: (if b then expectedTrace (i + 1) bs else [])

/-! ## Header utilities (`lm_proxy/utils.py`) -/

/-- `SENSITIVE_HEADERS` (`lm_proxy/utils.py`, lines 119-154). -/
def SENSITIVE_HEADERS : List String :=
  ["authorization", "www-authenticate",
   "content-length", "content-type", "transfer-encoding",
   "connection", "keep-alive", "upgrade",
   "cache-control", "etag", "if-none-match",
   "proxy-authorization", "proxy-connection",
   "strict-transport-security",
   "host",
   "range", "if-range",
   ":method", ":path", ":scheme", ":authority", "te", "trailer"]

/-- Header dictionaries: insertion-ordered association lists (a Python
`dict[str, str]`; keys are unique). -/
abbrev Headers := List (String × String)

/-- `d[k]` lookup (first occurrence). -/
def dictLookup (d : Headers) (k : String) : Option String :=
  (d.find? (fun p => p.1 == k)).map (fun p => p.2)

/-- `base.update(override)` on insertion-ordered dicts: keys already in
`base` keep their position and take the override value; keys only in
`override` are appended in `override`'s order. -/
def dictUpdate (base ov : Headers) : Headers :=
  base.map (fun p =>
    match dictLookup ov p.1 with
    | some v => (p.1, v)
    | none => p)
  ++ ov.filter (fun p => (dictLookup base p.1).isNone)

/-- Python `str.lower()`, characterwise (header names are ASCII; Lean's
`Char.toLower` lower-cases exactly the ASCII uppercase range). -/
def pyLower (s : String) : String :=
  String.mk (s.data.map Char.toLower)

/-- `filter_sensitive_headers(headers)` (`lm_proxy/utils.py`, lines
157-167): drops every entry whose lower-cased key is sensitive. -/
def filter_sensitive_headers (headers : Headers) : Headers :=
  headers.filter (fun p => !(SENSITIVE_HEADERS.contains (pyLower p.1)))

/-- `merge_headers(base_headers, override_headers, filter_sensitive)`
(`lm_proxy/utils.py`, lines 170-191).  `none` models Python `None`; the
source's truthiness tests (`if base_headers`, `if override_headers`)
also skip empty dicts. -/
def merge_headers (base_headers override_headers : Option Headers)
    (filter_sensitive : Bool) : Headers :=
  let result :=
    match base_headers with
    | some b => if b.isEmpty then [] else b
    | none => []
  let result :=
    match override_headers with
    | some o => if o.isEmpty then result else dictUpdate result o
    | none => result
  if filter_sensitive then filter_sensitive_headers result else result

/-- First-some choice, for stating "override wins, else base". -/
def pyFirstSome (a b : Option String) : Option String :=
  match a with
  | some v => some v
  | none => b

/-! ## Environment substitution (`lm_proxy/utils.py`,
`replace_env_strings_recursive`, and `lm_proxy/config.py`,
`Config.load`) -/

/-- A parsed configuration tree: strings, dicts, lists, and `other` for
the remaining scalars (numbers, booleans, `None`), which both
substitution functions pass through unchanged. -/
inductive PyData where
  | str (s : String)
  | dict (entries : List (String × PyData))
  | list (items : List PyData)
  | other

/-- Python `s.startswith(pre)`, via the character list (equivalent to
Lean's byte-position-based `String.startsWith`, and directly
computable). -/
def pyStartsWith (s pre : String) : Bool :=
  pre.data.isPrefixOf s.data

/-- Python `s[n:]` on a string, by code points. -/
def pyDrop (s : String) (n : Nat) : String :=
  String.mk (s.data.drop n)

/-- `os.environ` as an association list; `envLookup` is
`os.environ.get(name)` / the `name in os.environ` test. -/
def envLookup (environ : List (String × String)) (k : String) : Option String :=
  (environ.find? (fun p => p.1 == k)).map (fun p => p.2)

/-- The warning logged for a missing variable
(`"Environment variable '%s' not found"`). -/
def envWarning (name : String) : String :=
  "Environment variable " ++ sq ++ name ++ sq ++ " not found"

mutual

/-- `replace_env_strings_recursive(data)` (`lm_proxy/utils.py`, lines
98-114), with the `logging.warning` side effect made explicit: returns
the rewritten tree together with the warnings logged, in traversal
order. -/
def replace_env_strings_recursive (environ : List (String × String)) :
    PyData → PyData × List String
  | PyData.dict entries =>
    let r := replaceEnvEntries environ entries
    (PyData.dict r.1, r.2)
  | PyData.list items =>
    let r := replaceEnvItems environ items
    (PyData.list r.1, r.2)
  | PyData.str s =>
    if pyStartsWith s "env:" then
      let env_var_name := pyDrop s 4
      match envLookup environ env_var_name with
      | some v => (PyData.str v, [])
      | none => (PyData.str "", [envWarning env_var_name])
    else (PyData.str s, [])
  | PyData.other => (PyData.other, [])

/-- The dict comprehension `{k: replace_env_strings_recursive(v) ...}`. -/
def replaceEnvEntries (environ : List (String × String)) :
    List (String × PyData) → List (String × PyData) × List String
  | [] => ([], [])
  | e :: rest =>
    let rv := replace_env_strings_recursive environ e.2
    let rr := replaceEnvEntries environ rest
    ((e.1, rv.1) :: rr.1, rv.2 ++ rr.2)

/-- The list comprehension `[replace_env_strings_recursive(i) ...]`. -/
def replaceEnvItems (environ : List (String × String)) :
    List PyData → List PyData × List String
  | [] => ([], [])
  | x :: rest =>
    let rx := replace_env_strings_recursive environ x
    let rr := replaceEnvItems environ rest
    (rx.1 :: rr.1, rx.2 ++ rr.2)

end

/-- Per-leaf substitution: what the claim says happens to every string
leaf (`env:VAR` → value, or empty string when unset; others kept). -/
def substEnvLeaf (environ : List (String × String)) (s : String) : String :=
  if pyStartsWith s "env:" then (envLookup environ (pyDrop s 4)).getD "" else s

mutual

/-- Structural map over every string leaf of a tree, at any depth. -/
def mapStrLeaves (f : String → String) : PyData → PyData
  | PyData.str s => PyData.str (f s)
  | PyData.dict es => PyData.dict (mapStrEntries f es)
  | PyData.list xs => PyData.list (mapStrItems f xs)
  | PyData.other => PyData.other

def mapStrEntries (f : String → String) :
    List (String × PyData) → List (String × PyData)
  | [] => []
  | e :: rest => (e.1, mapStrLeaves f e.2) :: mapStrEntries f rest

def mapStrItems (f : String → String) : List PyData → List PyData
  | [] => []
  | x :: rest => mapStrLeaves f x :: mapStrItems f rest

end

mutual

/-- The warnings that a full traversal logs: one per `env:VAR` leaf
whose variable is unset, in traversal order. -/
def envWarningsOf (environ : List (String × String)) : PyData → List String
  | PyData.str s =>
    if pyStartsWith s "env:" && (envLookup environ (pyDrop s 4)).isNone then
      [envWarning (pyDrop s 4)]
    else []
  | PyData.dict es => envWarningsEntries environ es
  | PyData.list xs => envWarningsItems environ xs
  | PyData.other => []

def envWarningsEntries (environ : List (String × String)) :
    List (String × PyData) → List String
  | [] => []
  | e :: rest => envWarningsOf environ e.2 ++ envWarningsEntries environ rest

def envWarningsItems (environ : List (String × String)) :
    List PyData → List String
  | [] => []
  | x :: rest => envWarningsOf environ x ++ envWarningsItems environ rest

end

mutual

/-- No string anywhere in the tree starts with `env:`. -/
def noEnvData : PyData → Bool
  | PyData.str s => !(pyStartsWith s "env:")
  | PyData.dict es => noEnvEntries es
  | PyData.list xs => noEnvItems xs
  | PyData.other => true

def noEnvEntries : List (String × PyData) → Bool
  | [] => true
  | e :: rest => noEnvData e.2 && noEnvEntries rest

def noEnvItems : List PyData → Bool
  | [] => true
  | x :: rest => noEnvData x && noEnvItems rest

end

/-- The substitution applied by `Config.load` to one value of a
connection's config dict (`lm_proxy/config.py`, lines 33-37): only
top-level string values starting with `env:` are replaced, using
`value.split(":", 1)[1]` as the variable name and
`os.environ.get(env_var, "")` as the replacement; no warning is
logged. -/
def substConnValue (environ : List (String × String)) : PyData → PyData
  | PyData.str v =>
    if pyStartsWith v "env:" then
      match splitOnce ':' v with
      | some p => PyData.str ((envLookup environ p.2).getD "")
      | none => PyData.str v
    else PyData.str v
  | x => x

/-- The inner loop `for key, value in conn_config.items(): ...` of
`Config.load`, over one connection's config dict. -/
def connCfgSubst (environ : List (String × String)) : PyData → PyData
  | PyData.dict cfg =>
    PyData.dict (cfg.map (fun kv => (kv.1, substConnValue environ kv.2)))
  | w => w

/-- The outer loop `for conn_name, conn_config in
config_data.get("connections", {}).items(): ...` of `Config.load`. -/
def connsSubst (environ : List (String × String)) : PyData → PyData
  | PyData.dict conns =>
    PyData.dict (conns.map (fun ce => (ce.1, connCfgSubst environ ce.2)))
  | w => w

/-- The effect of `Config.load`'s loops on the top-level entries of
`config_data`: only the `"connections"` entry is rewritten. -/
def configEnvSubstEntries (environ : List (String × String))
    (entries : List (String × PyData)) : List (String × PyData) :=
  entries.map (fun e =>
    if e.1 = "connections" then (e.1, connsSubst environ e.2) else e)

/-- The environment-variable processing of `Config.load`
(`lm_proxy/config.py`, lines 29-38): for each connection in
`config_data.get("connections", {})`, replace its immediate `env:`
string values.  Everything else in the tree is returned unchanged.
(Non-dict values under `connections` would raise in the source before
any substitution; configurations produced by the TOML parser always
have dict-shaped connection tables.) -/
def configEnvSubst (environ : List (String × String)) : PyData → PyData
  | PyData.dict entries => PyData.dict (configEnvSubstEntries environ entries)
  | w => w

/-- Dict lookup on a `PyData` dict's entries. -/
def pdLookup (es : List (String × PyData)) (k : String) : Option PyData :=
  (es.find? (fun p => p.1 == k)).map (fun p => p.2)

/-! ## `resolve_obj_path` (`lm_proxy/utils.py`, lines 14-30) -/

/-- A Python object as traversed by `resolve_obj_path`: a dict, a list,
an object carrying attributes, or an opaque scalar (whose attribute
lookups fail). -/
inductive PyObj where
  | dict (entries : List (String × PyObj))
  | list (items : List PyObj)
  | attrObj (attrs : List (String × PyObj))
  | scalar (tag : String)

def objLookup (es : List (String × PyObj)) (k : String) : Option PyObj :=
  (es.find? (fun p => p.1 == k)).map (fun p => p.2)

def digitsToNat : List Char → Option Nat
  | [] => none
  | ds =>
    if ds.all Char.isDigit then
      some (ds.foldl (fun n c => 10 * n + (c.toNat - 48)) 0)
    else none

/-- Python `int(s)` on a string: optional surrounding whitespace, an
optional sign, then decimal digits; anything else raises `ValueError`
(modelled as `none`).  (Underscore digit grouping is not modelled; it
only widens the set of accepted strings.) -/
def pyToInt (s : String) : Option Int :=
  match s.trim.data with
  | '-' :: ds => (digitsToNat ds).map (fun n => -(n : Int))
  | '+' :: ds => (digitsToNat ds).map (fun n => (n : Int))
  | ds => (digitsToNat ds).map (fun n => (n : Int))

/-- Python list indexing `xs[i]`: negative indices count from the end;
out-of-range raises `IndexError` (modelled as `none`). -/
def pyListGet (xs : List PyObj) (i : Int) : Option PyObj :=
  let j := if i < 0 then i + (xs.length : Int) else i
  if j < 0 then none else xs.get? j.toNat

/-- One iteration of `resolve_obj_path`'s loop on `part`: dict key
lookup, `int(part)` list indexing, or `getattr`; every failure mode the
source catches (`AttributeError, KeyError, TypeError, ValueError,
IndexError`) is `none`. -/
def resolveStep (obj : PyObj) (part : String) : Option PyObj :=
  match obj with
  | PyObj.dict es => objLookup es part
  | PyObj.list xs =>
    match pyToInt part with
    | some i => pyListGet xs i
    | none => none
  | PyObj.attrObj attrs => objLookup attrs part
  | PyObj.scalar _ => none

/-- The loop of `resolve_obj_path`: `return default` at the first
failing segment. -/
def resolvePathLoop (default : PyObj) : PyObj → List String → PyObj
  | o, [] => o
  | o, p :: ps =>
    match resolveStep o p with
    | some o2 => resolvePathLoop default o2 ps
    | none => default

/-- `resolve_obj_path(obj, path, default)` (`lm_proxy/utils.py`, lines
14-30). -/
def resolve_obj_path (obj : PyObj) (path : String) (default : PyObj) : PyObj :=
  resolvePathLoop default obj (path.splitOn ".")

/-- All-or-nothing path resolution: `some` the resolved value when every
segment resolves, `none` otherwise. -/
def chasePath (o : PyObj) : List String → Option PyObj
  | [] => some o
  | p :: ps => (resolveStep o p).bind (fun o2 => chasePath o2 ps)

/-! ## Header utility theorems -/

theorem dictLookup_nil (k : String) : dictLookup [] k = none := rfl

theorem dictLookup_cons (p : String × String) (l : Headers) (k : String) :
    dictLookup (p :: l) k = if p.1 = k then some p.2 else dictLookup l k := by
  by_cases h : p.1 = k
  · simp [dictLookup, List.find?, h]
  · have hb : (p.1 == k) = false := by simpa using h
    simp [dictLookup, List.find?, hb, h]

theorem dictLookup_append (A B : Headers) (k : String) :
    dictLookup (A ++ B) k = pyFirstSome (dictLookup A k) (dictLookup B k) := by
  induction A with
  | nil => simp [dictLookup_nil, pyFirstSome]
  | cons p A ih =>
    rw [List.cons_append, dictLookup_cons, dictLookup_cons]
    by_cases h : p.1 = k
    · simp [h, pyFirstSome]
    · simp [h, ih]

theorem dictLookup_filter (q : String → Bool) (o : Headers) (k : String) :
    dictLookup (o.filter (fun p => q p.1)) k
      = if q k then dictLookup o k else none := by
  induction o with
  | nil => simp [dictLookup_nil]
  | cons p o ih =>
    rw [List.filter_cons]
    by_cases hk : p.1 = k
    · subst hk
      by_cases hq : q p.1
      · simp only [hq, ite_true, dictLookup_cons, if_pos rfl]
      · simp only [hq, Bool.false_eq_true, ite_false, ih]
    · by_cases hq : q p.1
      · simp only [hq, ite_true, dictLookup_cons, if_neg hk, ih]
      · simp only [hq, Bool.false_eq_true, ite_false, ih, dictLookup_cons, if_neg hk]

theorem dictLookup_map_upd (base ov : Headers) (k : String) :
    dictLookup (base.map (fun p =>
      match dictLookup ov p.1 with
      | some v => (p.1, v)
      | none => p)) k
    = match dictLookup base k with
      | some v => pyFirstSome (dictLookup ov k) (some v)
      | none => none := by
  induction base with
  | nil => simp [dictLookup_nil]
  | cons p base ih =>
    rw [List.map_cons, dictLookup_cons, dictLookup_cons]
    by_cases hk : p.1 = k
    · cases hov : dictLookup ov p.1 with
      | none =>
        have hov2 : dictLookup ov k = none := hk ▸ hov
        simp [hk, hov2, pyFirstSome]
      | some w =>
        have hov2 : dictLookup ov k = some w := hk ▸ hov
        simp [hk, hov2, pyFirstSome]
    · cases hov : dictLookup ov p.1 with
      | none => simp [hk, ih]
      | some w => simp [hk, ih]

theorem dictLookup_dictUpdate (base ov : Headers) (k : String) :
    dictLookup (dictUpdate base ov) k
      = pyFirstSome (dictLookup ov k) (dictLookup base k) := by
  unfold dictUpdate
  rw [dictLookup_append, dictLookup_map_upd]
  have hfil := dictLookup_filter (fun s => (dictLookup base s).isNone) ov k
  cases hb : dictLookup base k with
  | some v =>
    have hnone : dictLookup (ov.filter (fun p => (dictLookup base p.1).isNone)) k
        = none := by
      rw [hfil, hb]
      simp
    rw [hnone]
    cases ho : dictLookup ov k <;> simp [pyFirstSome]
  | none =>
    have hsame : dictLookup (ov.filter (fun p => (dictLookup base p.1).isNone)) k
        = dictLookup ov k := by
      rw [hfil, hb]
      simp
    rw [hsame]
    cases ho : dictLookup ov k <;> simp [pyFirstSome]

theorem dictUpdate_nil (base : Headers) : dictUpdate base [] = base := by
  unfold dictUpdate
  simp [dictLookup_nil]

theorem merge_headers_some_some (base ov : Headers) (fs : Bool) :
    merge_headers (some base) (some ov) fs
      = if fs then filter_sensitive_headers (dictUpdate base ov)
        else dictUpdate base ov := by
  unfold merge_headers
  cases base with
  | nil =>
    cases ov with
    | nil => simp [dictUpdate_nil]
    | cons q ovt => simp
  | cons p bt =>
    cases ov with
    | nil => simp [dictUpdate_nil]
    | cons q ovt => simp

theorem dictLookup_filter_sensitive (d : Headers) (k : String) :
    dictLookup (filter_sensitive_headers d) k
      = if SENSITIVE_HEADERS.contains (pyLower k) then none else dictLookup d k := by
  unfold filter_sensitive_headers
  induction d with
  | nil =>
    cases hs : SENSITIVE_HEADERS.contains (pyLower k) <;>
      simp [dictLookup_nil, hs]
  | cons p d ih =>
    rw [List.filter_cons]
    by_cases hk : p.1 = k
    · subst hk
      cases hs : SENSITIVE_HEADERS.contains (pyLower p.1) with
      | false => simp [dictLookup_cons]
      | true =>
        have hne : ¬((!true) = true) := by decide
        rw [if_neg hne, ih, if_pos hs, if_pos rfl]
    · cases hs : SENSITIVE_HEADERS.contains (pyLower p.1) with
      | false =>
        have hT : ((!false) = true) := by decide
        rw [if_pos hT, dictLookup_cons, if_neg hk]
        rw [dictLookup_cons, if_neg hk]
        exact ih
      | true =>
        have hne : ¬((!true) = true) := by decide
        rw [if_neg hne]
        rw [dictLookup_cons, if_neg hk]
        exact ih

/-- C7: merging headers gives override keys their override value and
remaining base keys their base value (observed through lookup), and —
unless filtering is explicitly disabled — any header whose lower-cased
name is in `SENSITIVE_HEADERS` is absent from the merged result no
matter which side supplied it. -/
theorem c7_merge_headers (base ov : Headers) (k : String) :
    (SENSITIVE_HEADERS.contains (pyLower k) = true →
       dictLookup (merge_headers (some base) (some ov) true) k = none)
    ∧ (SENSITIVE_HEADERS.contains (pyLower k) = false →
       dictLookup (merge_headers (some base) (some ov) true) k
         = pyFirstSome (dictLookup ov k) (dictLookup base k))
    ∧ dictLookup (merge_headers (some base) (some ov) false) k
        = pyFirstSome (dictLookup ov k) (dictLookup base k) := by
  rw [merge_headers_some_some, merge_headers_some_some, if_pos rfl,
    if_neg (by simp)]
  refine ⟨fun hs => ?_, fun hs => ?_, ?_⟩
  · rw [dictLookup_filter_sensitive, if_pos hs]
  · rw [dictLookup_filter_sensitive,
      if_neg (by rw [hs]; exact Bool.false_ne_true), dictLookup_dictUpdate]
  · rw [dictLookup_dictUpdate]

/-- C7 witness: with base `{"Authorization": "secret", "x-a": "1"}` and
override `{"X-B": "2", "x-a": "9"}`, the merged result drops
`Authorization` (sensitive, supplied by base), keeps the override value
for `x-a`, and with filtering disabled keeps everything. -/
theorem c7_merge_headers_witness :
    dictLookup (merge_headers
        (some [("Authorization", "secret"), ("x-a", "1")])
        (some [("X-B", "2"), ("x-a", "9")]) true) "Authorization" = none
    ∧ dictLookup (merge_headers
        (some [("Authorization", "secret"), ("x-a", "1")])
        (some [("X-B", "2"), ("x-a", "9")]) true) "x-a" = some "9"
    ∧ dictLookup (merge_headers
        (some [("Authorization", "secret"), ("x-a", "1")])
        (some [("X-B", "2"), ("x-a", "9")]) false) "Authorization" = some "secret" := by
  have h1 := c7_merge_headers [("Authorization", "secret"), ("x-a", "1")]
    [("X-B", "2"), ("x-a", "9")] "Authorization"
  have h2 := c7_merge_headers [("Authorization", "secret"), ("x-a", "1")]
    [("X-B", "2"), ("x-a", "9")] "x-a"
  refine ⟨h1.1 (by decide), (h2.2.1 (by decide)).trans (by decide), ?_⟩
  rw [h1.2.2]
  decide

/-! ## String helper lemmas -/

theorem str_data_inj {s t : String} (h : s.data = t.data) : s = t := by
  cases s
  cases t
  exact congrArg String.mk (by simpa using h)

theorem string_mk_data (s : String) : String.mk s.data = s := by
  cases s
  rfl

theorem strContains_of_data {s sub : String} (a b : String)
    (h : s.data = a.data ++ (sub.data ++ b.data)) : strContains s sub :=
  ⟨a, b, str_data_inj (by simp [h, List.append_assoc])⟩

theorem strContains_refl (s : String) : strContains s s :=
  strContains_of_data "" "" (by simp)

theorem strContains_append_left (t : String) {s sub : String}
    (h : strContains s sub) : strContains (t ++ s) sub := by
  obtain ⟨a, b, rfl⟩ := h
  exact strContains_of_data (t ++ a) b (by simp)

theorem strContains_append_right (t : String) {s sub : String}
    (h : strContains s sub) : strContains (s ++ t) sub := by
  obtain ⟨a, b, rfl⟩ := h
  exact strContains_of_data a (b ++ t) (by simp)

theorem strContains_empty (s : String) : strContains s "" :=
  strContains_of_data s "" (by simp)

theorem eq_empty_of_strContains_empty {k : String} (h : strContains "" k) :
    k = "" := by
  obtain ⟨a, b, hab⟩ := h
  have : ([] : List Char) = a.data ++ k.data ++ b.data := by
    have := congrArg String.data hab
    simpa using this
  have hk : k.data = [] := by
    rcases List.append_eq_nil.mp (List.append_eq_nil.mp this.symm).1 with ⟨-, h2⟩
    exact h2
  exact str_data_inj (by simp [hk])

theorem pyJoin_contains {l : List String} {k : String} (hk : k ∈ l) :
    strContains (pyJoin ", " l) k := by
  induction l with
  | nil => cases hk
  | cons x xs ih =>
    rcases List.mem_cons.mp hk with rfl | hmem
    · cases xs with
      | nil => exact strContains_refl k
      | cons y ys =>
        simp only [pyJoin]
        exact strContains_append_right _ (strContains_append_right _ (strContains_refl k))
    · cases xs with
      | nil => cases hmem
      | cons y ys =>
        simp only [pyJoin]
        exact strContains_append_left _ (ih hmem)

/-! ## Routing engine lemmas -/

theorem resolveLoop_append_of_no_match (conns : List String) (model : String)
    (pre rest : List (String × String))
    (h : ∀ p ∈ pre, fnmatchcase model p.1 = false) :
    resolveLoop conns model (pre ++ rest) = resolveLoop conns model rest := by
  induction pre with
  | nil => rfl
  | cons q pre ih =>
    have hq : fnmatchcase model q.1 = false := h q (List.mem_cons_self _ _)
    obtain ⟨pat, rule⟩ := q
    simp only [List.cons_append, resolveLoop, hq, Bool.false_eq_true, if_false]
    exact ih (fun p hp => h p (List.mem_cons_of_mem _ hp))

theorem resolveLoop_head_match (conns : List String) (model pat rule : String)
    (post : List (String × String)) (h : fnmatchcase model pat = true) :
    resolveLoop conns model ((pat, rule) :: post)
      = resolveLoop conns model [(pat, rule)] := by
  simp [resolveLoop, h]

theorem splitOnceAux_append {sep : Char} (a b : List Char) (ha : sep ∉ a) :
    splitOnceAux sep (a ++ sep :: b) = some (a, b) := by
  induction a with
  | nil => simp [splitOnceAux]
  | cons c cs ih =>
    have hc : ¬(c = sep) := fun h => ha (h ▸ List.mem_cons_self _ _)
    simp [splitOnceAux, hc, ih (fun h => ha (List.mem_cons_of_mem _ h))]

theorem splitOnce_append (c t : String) (hc : '.' ∉ c.data) :
    splitOnce '.' (c ++ "." ++ t) = some (c, t) := by
  unfold splitOnce
  have hdata : (c ++ "." ++ t).data = c.data ++ '.' :: t.data := by
    simp [String.data_append]
  rw [hdata, splitOnceAux_append _ _ hc]
  simp [string_mk_data]

/-- C1 (code bug witness): under the single rule `"gpt-*" ->
"openai.gpt-4-turbo"`, resolving `"gpt-4"` does not return `("openai",
"gpt-4-turbo")` as the claim states: the source's line 40 references the
unbound name `rhs_model`, so Python raises `NameError` whenever the
matched rule's model part is not `"*"`.  The wildcard branch does behave
as claimed: under `"*" -> "openai.*"`, resolving `"gpt-4"` yields
`("openai", "gpt-4")`. -/
theorem c1_literal_model_part_raises_nameError :
    resolve_connection_and_model
        ⟨["openai"], [("gpt-*", "openai.gpt-4-turbo")]⟩ "gpt-4"
      = Except.error (RouteError.nameError "rhs_model")
    ∧ resolve_connection_and_model ⟨["openai"], [("*", "openai.*")]⟩ "gpt-4"
      = Except.ok ("openai", "gpt-4") := by
  constructor <;>
    simp [resolve_connection_and_model, resolveLoop, fnmatchcase, globMatch,
      splitOnce, splitOnceAux]

/-- C4: the outcome of `resolve_connection_and_model` is fully determined
by the first rule (in insertion order) whose glob pattern matches the
external model: it equals the outcome under that rule alone, and is
unchanged when every later rule is replaced arbitrarily — a later rule's
target is never used, even if a later pattern is a more specific match.
Matching is `fnmatchcase`: case-sensitive shell glob anchored over the
full model name. -/
theorem c4_first_matching_rule_wins (conns : List String) (model : String)
    (pre : List (String × String)) (r : String × String)
    (post1 post2 : List (String × String))
    (hpre : ∀ p ∈ pre, fnmatchcase model p.1 = false)
    (hr : fnmatchcase model r.1 = true) :
    resolve_connection_and_model ⟨conns, pre ++ r :: post1⟩ model
      = resolve_connection_and_model ⟨conns, [r]⟩ model
    ∧ resolve_connection_and_model ⟨conns, pre ++ r :: post1⟩ model
      = resolve_connection_and_model ⟨conns, pre ++ r :: post2⟩ model := by
  obtain ⟨pat, rule⟩ := r
  have h1 : ∀ post : List (String × String),
      resolve_connection_and_model ⟨conns, pre ++ (pat, rule) :: post⟩ model
        = resolve_connection_and_model ⟨conns, [(pat, rule)]⟩ model := by
    intro post
    unfold resolve_connection_and_model
    rw [resolveLoop_append_of_no_match _ _ _ _ hpre,
      resolveLoop_head_match _ _ _ _ _ hr]
  exact ⟨h1 post1, (h1 post1).trans (h1 post2).symm⟩

/-- C4 witness: with rules `["claude-*" -> "anthropic.claude", "gpt-*" ->
"openai.*", "gpt-4" -> "openai.gpt-4-exact"]`, resolving `"gpt-4"` is
decided by the `"gpt-*"` rule, not the later, more specific `"gpt-4"`
rule. -/
theorem c4_first_matching_rule_wins_witness :
    resolve_connection_and_model
        ⟨["openai"],
         [("claude-*", "anthropic.claude"), ("gpt-*", "openai.*"),
          ("gpt-4", "openai.gpt-4-exact")]⟩ "gpt-4"
      = resolve_connection_and_model ⟨["openai"], [("gpt-*", "openai.*")]⟩ "gpt-4"
    ∧ resolve_connection_and_model
        ⟨["openai"],
         [("claude-*", "anthropic.claude"), ("gpt-*", "openai.*"),
          ("gpt-4", "openai.gpt-4-exact")]⟩ "gpt-4"
      = resolve_connection_and_model
        ⟨["openai"], [("claude-*", "anthropic.claude"), ("gpt-*", "openai.*")]⟩
        "gpt-4" := by
  have h := c4_first_matching_rule_wins ["openai"] "gpt-4"
    [("claude-*", "anthropic.claude")] ("gpt-*", "openai.*")
    [("gpt-4", "openai.gpt-4-exact")] []
    (by
      intro p hp
      simp only [List.mem_singleton] at hp
      subst hp
      simp [fnmatchcase, globMatch])
    (by simp [fnmatchcase, globMatch])
  exact ⟨h.1.trans rfl, h.2⟩

/-- C8: when the first matching rule's target names a connection absent
from the registry, resolution fails with the unknown-connection error,
whose message contains the missing connection's name and every known
connection's name (via `', '.join`); when no pattern matches, resolution
fails with the no-route error, whose message suggests adding a catch-all
rule. -/
theorem c8_resolve_error_cases (conns : List String) (model : String) :
    (∀ (pre post : List (String × String)) (pat c t : String),
       (∀ p ∈ pre, fnmatchcase model p.1 = false) →
       fnmatchcase model pat = true →
       '.' ∉ c.data →
       conns.contains c = false →
       resolve_connection_and_model ⟨conns, pre ++ (pat, c ++ "." ++ t) :: post⟩ model
         = Except.error (RouteError.unknownConnection c conns)
       ∧ strContains (routeErrorMessage (RouteError.unknownConnection c conns)) c
       ∧ ∀ k ∈ conns,
           strContains (routeErrorMessage (RouteError.unknownConnection c conns)) k)
    ∧ (∀ routing : List (String × String),
       (∀ p ∈ routing, fnmatchcase model p.1 = false) →
       resolve_connection_and_model ⟨conns, routing⟩ model
         = Except.error (RouteError.noRouteMatched model)
       ∧ strContains (routeErrorMessage (RouteError.noRouteMatched model))
           "Add a catch-all rule") := by
  constructor
  · intro pre post pat c t hpre hpat hc hconn
    refine ⟨?_, ?_, ?_⟩
    · unfold resolve_connection_and_model
      rw [resolveLoop_append_of_no_match _ _ _ _ hpre]
      have hmem : c ∉ conns := by simpa using hconn
      simp [resolveLoop, hpat, splitOnce_append c t hc, hmem]
    · exact strContains_of_data
        ("Routing selected unknown connection " ++ sq)
        (sq ++ (". Defined connections: " ++
          (if pyJoin ", " conns = "" then "(none)" else pyJoin ", " conns)))
        (by simp [routeErrorMessage])
    · intro k hk
      have hjk : strContains (pyJoin ", " conns) k := pyJoin_contains hk
      by_cases hj : pyJoin ", " conns = ""
      · have : k = "" := eq_empty_of_strContains_empty (hj ▸ hjk)
        subst this
        exact strContains_empty _
      · have : routeErrorMessage (RouteError.unknownConnection c conns)
            = ("Routing selected unknown connection " ++ sq ++ c ++ sq ++
                ". Defined connections: ") ++ pyJoin ", " conns := by
          simp [routeErrorMessage, hj]
        rw [this]
        exact strContains_append_left _ hjk
  · intro routing hall
    constructor
    · unfold resolve_connection_and_model
      have := resolveLoop_append_of_no_match conns model routing [] hall
      simpa using this
    · exact strContains_of_data
        ("No routing rule matched model " ++ sq ++ model ++ sq ++ ". ")
        (" like \"*\" = \"openai.gpt-3.5-turbo\" if desired.")
        (by simp [routeErrorMessage])

/-! ## Streaming bridge theorems -/

/-- C3: when the upstream callback emits `chunks` and the task completes
normally, `process_stream` yields exactly: the role preamble, one
content frame per chunk in upstream order, a `finish_reason = "stop"`
frame, and the `[DONE]` sentinel — for every scheduling split `k`
between the polling loop and the drain loop.  Every non-sentinel frame
visibly carries the stream's single id, `object =
"chat.completion.chunk"`, the single `created` timestamp, and one
choice with index 0. -/
theorem c3_stream_normal_completion (stream_id : String) (created : Nat)
    (k : Nat) (chunks : List String) :
    process_stream stream_id created k ⟨chunks, none⟩
      = Frame.data ⟨stream_id, "chat.completion.chunk", created, 0,
          Delta.role "assistant", none, none⟩
        :: (chunks.map (fun c =>
              Frame.data ⟨stream_id, "chat.completion.chunk", created, 0,
                Delta.content c, none, none⟩)
            ++ [Frame.data ⟨stream_id, "chat.completion.chunk", created, 0,
                  Delta.empty, some "stop", none⟩,
                Frame.done]) := by
  simp only [process_stream, make_chunk]
  have h : ∀ f : String → Frame,
      (List.take k chunks).map f ++ (List.drop k chunks).map f = chunks.map f := by
    intro f
    rw [← List.map_append, List.take_append_drop]
  rw [h]
  simp

/-- C2 (code bug witness): when the upstream task raises
`RuntimeError("boom")` after emitting `["a"]`, the stream does contain
an error frame with `finish_reason = "error"` followed by the stop
frame and the `[DONE]` sentinel — but the error object does not carry
the failure's message and type: the source (line 138) passes
`make_chunk` the dict `{'message': str(e), 'type': type(e).__name__}`,
which `make_chunk` (line 107) wraps again, so the frame's error type is
`"dict"` (not `"RuntimeError"`) and its message is the repr of that
dict (not `"boom"`). -/
theorem c2_stream_error_frame_wraps_dict :
    process_stream "chatcmpl-0" 17 1 ⟨["a"], some ⟨"RuntimeError", "boom"⟩⟩
      = [Frame.data ⟨"chatcmpl-0", "chat.completion.chunk", 17, 0,
           Delta.role "assistant", none, none⟩,
         Frame.data ⟨"chatcmpl-0", "chat.completion.chunk", 17, 0,
           Delta.content "a", none, none⟩,
         Frame.data ⟨"chatcmpl-0", "chat.completion.chunk", 17, 0,
           Delta.empty, some "error",
           some (errValStr (ErrVal.dictMT "boom" "RuntimeError"), "dict")⟩,
         Frame.data ⟨"chatcmpl-0", "chat.completion.chunk", 17, 0,
           Delta.empty, some "stop", none⟩,
         Frame.done]
    ∧ errValTypeName (ErrVal.dictMT "boom" "RuntimeError") ≠ "RuntimeError"
    ∧ errValStr (ErrVal.dictMT "boom" "RuntimeError") ≠ "boom" := by
  refine ⟨rfl, ?_, ?_⟩ <;> decide

/-! ## Middleware chain theorems -/

theorem run_middleware_chain_eq_foldr {M : Type → Type} {Ctx : Type}
    (mws : List (Ctx → M Unit → M Unit)) (ctx : Ctx) (handler : M Unit) :
    run_middleware_chain mws ctx handler
      = mws.foldr (fun mw k => mw ctx k) handler := by
  cases mws with
  | nil => rfl
  | cons m ms =>
    unfold run_middleware_chain
    simp [List.foldl_reverse]

theorem emitEvent_run (e : ChainEvent) (s : List ChainEvent) :
    (emitEvent e).run s = ((), s ++ [e]) := rfl

theorem mwChain_run (bs : List Bool) (i : Nat) (s : List ChainEvent) :
    (((mwList i bs).foldr (fun mw k => mw () k) terminalHandler).run s)
      = ((), s ++ expectedTrace i bs) := by
  induction bs generalizing i s with
  | nil => rfl
  | cons b bs ih =>
    cases b with
    | false => rfl
    | true =>
      have step : (((mwList i (true :: bs)).foldr (fun mw k => mw Unit.unit k)
            terminalHandler).run s)
          = (((mwList (i + 1) bs).foldr (fun mw k => mw Unit.unit k)
              terminalHandler).run (s ++ [ChainEvent.enter i])) := rfl
      rw [step, ih]
      simp [expectedTrace]

theorem chainTrace_eq (bs : List Bool) :
    chainTrace bs = expectedTrace 0 bs := by
  unfold chainTrace
  rw [run_middleware_chain_eq_foldr, mwChain_run]
  simp

theorem expectedTrace_no_terminal {bs : List Bool} (h : false ∈ bs) (i : Nat) :
    ChainEvent.terminal ∉ expectedTrace i bs := by
  induction bs generalizing i with
  | nil => cases h
  | cons b bs ih =>
    cases b with
    | false =>
      simp [expectedTrace]
    | true =>
      have hb : false ∈ bs := by simpa using h
      simp only [expectedTrace, if_true]
      intro hmem
      rcases List.mem_cons.mp hmem with h1 | h2
      · cases h1
      · exact ih hb (i + 1) h2

theorem expectedTrace_enter_bound {bs : List Bool} {i a : Nat}
    (h : ChainEvent.enter a ∈ expectedTrace i bs) :
    ∃ d, a = i + d ∧ ∀ e < d, bs.get? e ≠ some false := by
  induction bs generalizing i with
  | nil =>
    simp only [expectedTrace, List.mem_singleton] at h
    cases h
  | cons b bs ih =>
    simp only [expectedTrace] at h
    rcases List.mem_cons.mp h with h1 | h2
    · refine ⟨0, by simpa using ChainEvent.enter.inj h1, ?_⟩
      intro e he
      omega
    · cases b with
      | false => simp at h2
      | true =>
        rw [if_pos rfl] at h2
        obtain ⟨d, hd, hall⟩ := ih h2
        refine ⟨d + 1, by omega, ?_⟩
        intro e he
        cases e with
        | zero => simp
        | succ e' =>
          simpa using hall e' (by omega)

/-- C6: running the middleware chain built from behaviours `bs`
(middleware `j` records its entry and invokes its continuation iff
`bs[j]`) over the event-recording terminal handler produces exactly the
declared-order trace `expectedTrace`; whenever some middleware never
invokes its continuation, the terminal handler's side effect never
happens (its counter in the trace is zero) and no middleware after a
non-delegating one is ever entered; and with an empty middleware list
`run_middleware_chain` is the terminal handler itself, for any effect
type. -/
theorem c6_middleware_chain (bs : List Bool) :
    chainTrace bs = expectedTrace 0 bs
    ∧ (false ∈ bs →
        (chainTrace bs).count ChainEvent.terminal = 0
        ∧ ∀ j m, bs.get? j = some false → j < m →
            ChainEvent.enter m ∉ chainTrace bs)
    ∧ ∀ (M : Type → Type) (Ctx : Type) (ctx : Ctx) (handler : M Unit),
        run_middleware_chain ([] : List (Ctx → M Unit → M Unit)) ctx handler
          = handler := by
  refine ⟨chainTrace_eq bs, fun hf => ⟨?_, ?_⟩, fun M Ctx ctx handler => rfl⟩
  · rw [chainTrace_eq]
    exact List.count_eq_zero.mpr (expectedTrace_no_terminal hf 0)
  · intro j m hj hjm hmem
    rw [chainTrace_eq] at hmem
    obtain ⟨d, hd, hall⟩ := expectedTrace_enter_bound hmem
    exact hall j (by omega) hj

/-- C6 witness: with behaviours `[true, false, true]` the chain enters
middlewares 0 and 1 only; the terminal handler never runs and
middleware 2 is never entered. -/
theorem c6_middleware_chain_witness :
    chainTrace [true, false, true] = [ChainEvent.enter 0, ChainEvent.enter 1]
    ∧ (chainTrace [true, false, true]).count ChainEvent.terminal = 0
    ∧ ChainEvent.enter 2 ∉ chainTrace [true, false, true] := by
  have h := c6_middleware_chain [true, false, true]
  have hf : false ∈ [true, false, true] := by simp
  refine ⟨h.1.trans (by simp [expectedTrace]), (h.2.1 hf).1, ?_⟩
  exact (h.2.1 hf).2 1 2 rfl (by omega)

/-- C8 witness: `resolve("x", {"x": "missing.y"})` with connections
`{"a"}` fails with the unknown-connection error naming `missing`, and
`resolve("x", {})` fails with the no-route error suggesting a catch-all
rule. -/
theorem c8_resolve_error_cases_witness :
    resolve_connection_and_model ⟨["a"], [("x", "missing" ++ "." ++ "y")]⟩ "x"
      = Except.error (RouteError.unknownConnection "missing" ["a"])
    ∧ strContains (routeErrorMessage (RouteError.unknownConnection "missing" ["a"]))
        "missing"
    ∧ strContains (routeErrorMessage (RouteError.unknownConnection "missing" ["a"]))
        "a"
    ∧ resolve_connection_and_model ⟨["a"], []⟩ "x"
      = Except.error (RouteError.noRouteMatched "x")
    ∧ strContains (routeErrorMessage (RouteError.noRouteMatched "x"))
        "Add a catch-all rule" := by
  have h := c8_resolve_error_cases ["a"] "x"
  have h1 := h.1 [] [] "x" "missing" "y"
    (by intro p hp; cases hp)
    (by simp [fnmatchcase, globMatch])
    (by decide)
    (by decide)
  have h2 := h.2 [] (by intro p hp; cases hp)
  exact ⟨by simpa using h1.1, h1.2.1, h1.2.2 "a" (by simp), h2.1, h2.2⟩

/-! ## `replace_env_strings_recursive` theorems -/

mutual

theorem replaceEnv_eq (environ : List (String × String)) :
    ∀ t : PyData,
      replace_env_strings_recursive environ t
        = (mapStrLeaves (substEnvLeaf environ) t, envWarningsOf environ t)
  | PyData.str s => by
    by_cases h : pyStartsWith s "env:"
    · cases henv : envLookup environ (pyDrop s 4) with
      | none =>
        simp [replace_env_strings_recursive, mapStrLeaves, substEnvLeaf,
          envWarningsOf, h, henv]
      | some v =>
        simp [replace_env_strings_recursive, mapStrLeaves, substEnvLeaf,
          envWarningsOf, h, henv]
    · simp [replace_env_strings_recursive, mapStrLeaves, substEnvLeaf,
        envWarningsOf, h]
  | PyData.dict es => by
    have h := replaceEnvEntries_eq environ es
    simp [replace_env_strings_recursive, mapStrLeaves, envWarningsOf, h]
  | PyData.list xs => by
    have h := replaceEnvItems_eq environ xs
    simp [replace_env_strings_recursive, mapStrLeaves, envWarningsOf, h]
  | PyData.other => by
    simp [replace_env_strings_recursive, mapStrLeaves, envWarningsOf]

theorem replaceEnvEntries_eq (environ : List (String × String)) :
    ∀ es : List (String × PyData),
      replaceEnvEntries environ es
        = (mapStrEntries (substEnvLeaf environ) es, envWarningsEntries environ es)
  | [] => by
    simp [replaceEnvEntries, mapStrEntries, envWarningsEntries]
  | e :: rest => by
    have h1 := replaceEnv_eq environ e.2
    have h2 := replaceEnvEntries_eq environ rest
    simp [replaceEnvEntries, mapStrEntries, envWarningsEntries, h1, h2]

theorem replaceEnvItems_eq (environ : List (String × String)) :
    ∀ xs : List PyData,
      replaceEnvItems environ xs
        = (mapStrItems (substEnvLeaf environ) xs, envWarningsItems environ xs)
  | [] => by
    simp [replaceEnvItems, mapStrItems, envWarningsItems]
  | x :: rest => by
    have h1 := replaceEnv_eq environ x
    have h2 := replaceEnvItems_eq environ rest
    simp [replaceEnvItems, mapStrItems, envWarningsItems, h1, h2]

end

mutual

theorem replaceEnv_noEnv (environ : List (String × String)) :
    ∀ t : PyData, noEnvData t = true →
      replace_env_strings_recursive environ t = (t, [])
  | PyData.str s => by
    intro h
    have hs : pyStartsWith s "env:" = false := by
      simpa [noEnvData] using h
    simp [replace_env_strings_recursive, hs]
  | PyData.dict es => by
    intro h
    have h2 := replaceEnvEntries_noEnv environ es (by simpa [noEnvData] using h)
    simp [replace_env_strings_recursive, h2]
  | PyData.list xs => by
    intro h
    have h2 := replaceEnvItems_noEnv environ xs (by simpa [noEnvData] using h)
    simp [replace_env_strings_recursive, h2]
  | PyData.other => by
    intro h
    simp [replace_env_strings_recursive]

theorem replaceEnvEntries_noEnv (environ : List (String × String)) :
    ∀ es : List (String × PyData), noEnvEntries es = true →
      replaceEnvEntries environ es = (es, [])
  | [] => by
    intro h
    simp [replaceEnvEntries]
  | e :: rest => by
    intro h
    rw [noEnvEntries, Bool.and_eq_true] at h
    have h1 := replaceEnv_noEnv environ e.2 h.1
    have h2 := replaceEnvEntries_noEnv environ rest h.2
    simp [replaceEnvEntries, h1, h2]

theorem replaceEnvItems_noEnv (environ : List (String × String)) :
    ∀ xs : List PyData, noEnvItems xs = true →
      replaceEnvItems environ xs = (xs, [])
  | [] => by
    intro h
    simp [replaceEnvItems]
  | x :: rest => by
    intro h
    rw [noEnvItems, Bool.and_eq_true] at h
    have h1 := replaceEnv_noEnv environ x h.1
    have h2 := replaceEnvItems_noEnv environ rest h.2
    simp [replaceEnvItems, h1, h2]

end

/-- C9: `replace_env_strings_recursive` is the identity (with no
warnings) on any tree containing no `env:`-prefixed string — so applying
it twice equals applying it once there — and in general it rewrites
exactly the string leaves, at any nesting depth including inside lists:
each `env:VAR` leaf becomes the environment value, or the empty string
plus a logged warning when `VAR` is unset, while all other leaves and
all structure are preserved. -/
theorem c9_replace_env_strings_recursive (environ : List (String × String))
    (t : PyData) :
    (noEnvData t = true → replace_env_strings_recursive environ t = (t, []))
    ∧ replace_env_strings_recursive environ t
        = (mapStrLeaves (substEnvLeaf environ) t, envWarningsOf environ t) :=
  ⟨replaceEnv_noEnv environ t, replaceEnv_eq environ t⟩

/-- C9 witness: a tree with no `env:` strings is returned unchanged, and
the test-suite tree `{"data": {"field": "env:TEST_VAR1"}}` together with
a nested list containing an unset variable is rewritten leaf-wise, with
one warning for the unset variable. -/
theorem c9_replace_env_strings_recursive_witness :
    replace_env_strings_recursive [("TEST_VAR1", "env_value1")]
        (PyData.dict [("a", PyData.str "x")])
      = (PyData.dict [("a", PyData.str "x")], [])
    ∧ replace_env_strings_recursive [("TEST_VAR1", "env_value1")]
        (PyData.dict
          [("data", PyData.dict [("field", PyData.str "env:TEST_VAR1")]),
           ("lst", PyData.list [PyData.str "env:NON_EXIST"])])
      = (PyData.dict
          [("data", PyData.dict [("field", PyData.str "env_value1")]),
           ("lst", PyData.list [PyData.str ""])],
         [envWarning "NON_EXIST"]) := by
  constructor
  · exact (c9_replace_env_strings_recursive [("TEST_VAR1", "env_value1")]
      (PyData.dict [("a", PyData.str "x")])).1 (by decide)
  · refine (c9_replace_env_strings_recursive [("TEST_VAR1", "env_value1")] _).2.trans ?_
    simp [mapStrLeaves, mapStrEntries, mapStrItems, substEnvLeaf,
      envWarningsOf, envWarningsEntries, envWarningsItems, pyStartsWith,
      pyDrop, envLookup]

/-! ## `Config.load` environment substitution theorems -/

/-- `find?` form of `pdLookup`: the whole matching entry. -/
def pdFind (es : List (String × PyData)) (k : String) :
    Option (String × PyData) :=
  es.find? (fun p => p.1 == k)

theorem pdLookup_eq_pdFind (es : List (String × PyData)) (k : String) :
    pdLookup es k = (pdFind es k).map (fun p => p.2) := rfl

theorem pdFind_cons (e : String × PyData) (l : List (String × PyData))
    (k : String) :
    pdFind (e :: l) k = if e.1 = k then some e else pdFind l k := by
  by_cases h : e.1 = k
  · simp [pdFind, List.find?, h]
  · have hb : (e.1 == k) = false := by simpa using h
    simp [pdFind, List.find?, hb, h]

theorem pdLookup_cons (e : String × PyData) (l : List (String × PyData))
    (k : String) :
    pdLookup (e :: l) k = if e.1 = k then some e.2 else pdLookup l k := by
  rw [pdLookup_eq_pdFind, pdLookup_eq_pdFind, pdFind_cons]
  by_cases h : e.1 = k <;> simp [h]

theorem pdLookup_map (f : (String × PyData) → (String × PyData))
    (hf : ∀ e, (f e).1 = e.1) (l : List (String × PyData)) (k : String) :
    pdLookup (l.map f) k = (pdFind l k).map (fun e => (f e).2) := by
  induction l with
  | nil => rfl
  | cons e l ih =>
    rw [List.map_cons, pdLookup_cons, pdFind_cons]
    by_cases hk : e.1 = k
    · rw [if_pos (by rw [hf e]; exact hk), if_pos hk]
      rfl
    · rw [if_neg (by rw [hf e]; exact hk), if_neg hk]
      exact ih

theorem pdFind_key {es : List (String × PyData)} {k : String}
    {e : String × PyData} (h : pdFind es k = some e) : e.1 = k := by
  have := List.find?_some h
  simpa using this

/-- C5 (amended): `Config.load`'s substitution touches only the
`"connections"` entry of the configuration tree: every other top-level
entry is returned verbatim (so `env:` strings elsewhere, at any depth,
survive unchanged); within `connections`, each connection's config dict
has exactly its immediate values rewritten by `substConnValue`
(top-level `env:` strings replaced by the environment value or the
empty string when unset, everything else — including nested dicts with
`env:` strings inside — kept as is), and no warning is logged. -/
theorem c5_amended_connections_only (environ : List (String × String))
    (top : List (String × PyData)) :
    (∀ k, ¬(k = "connections") →
       pdLookup (configEnvSubstEntries environ top) k = pdLookup top k)
    ∧ pdLookup (configEnvSubstEntries environ top) "connections"
        = (pdLookup top "connections").map (connsSubst environ)
    ∧ (∀ (conns : List (String × PyData)) (cn : String),
        pdLookup (conns.map (fun ce => (ce.1, connCfgSubst environ ce.2))) cn
          = (pdLookup conns cn).map (connCfgSubst environ))
    ∧ (∀ (cfg : List (String × PyData)) (key : String),
        pdLookup (cfg.map (fun kv => (kv.1, substConnValue environ kv.2))) key
          = (pdLookup cfg key).map (substConnValue environ)) := by
  have hf : ∀ e : String × PyData,
      ((if e.1 = "connections" then (e.1, connsSubst environ e.2) else e)).1
        = e.1 := by
    intro e
    by_cases h : e.1 = "connections" <;> simp [h]
  refine ⟨?_, ?_, ?_, ?_⟩
  · intro k hk
    unfold configEnvSubstEntries
    rw [pdLookup_map _ hf, pdLookup_eq_pdFind]
    cases hfind : pdFind top k with
    | none => rfl
    | some e =>
      have hek : e.1 = k := pdFind_key hfind
      simp [hek ▸ hk]
  · unfold configEnvSubstEntries
    rw [pdLookup_map _ hf, pdLookup_eq_pdFind]
    cases hfind : pdFind top "connections" with
    | none => rfl
    | some e =>
      have hek : e.1 = "connections" := pdFind_key hfind
      simp [hek]
  · intro conns cn
    rw [pdLookup_map (fun ce => (ce.1, connCfgSubst environ ce.2)) (fun e => rfl),
      pdLookup_eq_pdFind]
    cases pdFind conns cn <;> rfl
  · intro cfg key
    rw [pdLookup_map (fun kv => (kv.1, substConnValue environ kv.2)) (fun e => rfl),
      pdLookup_eq_pdFind]
    cases pdFind cfg key <;> rfl

/-- C5 amended witness: in a config with a `connections` table and a
`port` entry, the `port` entry is returned verbatim and the connection's
`api_key` value is substituted. -/
theorem c5_amended_connections_only_witness :
    pdLookup (configEnvSubstEntries [("K", "v")]
        [("connections", PyData.dict
            [("c1", PyData.dict [("api_key", PyData.str "env:K")])]),
         ("port", PyData.other)]) "port"
      = pdLookup
          [("connections", PyData.dict
              [("c1", PyData.dict [("api_key", PyData.str "env:K")])]),
           ("port", PyData.other)] "port"
    ∧ pdLookup (([("api_key", PyData.str "env:K")] :
          List (String × PyData)).map
            (fun kv => (kv.1, substConnValue [("K", "v")] kv.2))) "api_key"
      = some (PyData.str "v") := by
  have h := c5_amended_connections_only [("K", "v")]
    [("connections", PyData.dict
        [("c1", PyData.dict [("api_key", PyData.str "env:K")])]),
     ("port", PyData.other)]
  refine ⟨h.1 "port" (by decide), ?_⟩
  rw [h.2.2.2 [("api_key", PyData.str "env:K")] "api_key"]
  rfl

/-- C5 counterexample: configuration loading does not substitute `env:`
strings anywhere in the tree.  With `K = "v"` in the environment, the
`Config.load` substitution rewrites only the connection's immediate
`api_key` value; the `env:K` string nested one level deeper inside the
connection and the one under `routing` are left unchanged, so the
result differs from the whole-tree substitution the claim describes
(and no warning is ever logged by this code path). -/
theorem c5_counterexample_load_is_shallow :
    configEnvSubst [("K", "v")]
        (PyData.dict
          [("connections", PyData.dict
              [("c1", PyData.dict
                  [("api_key", PyData.str "env:K"),
                   ("nested", PyData.dict [("x", PyData.str "env:K")])])]),
           ("routing", PyData.dict [("*", PyData.str "env:K")])])
      = PyData.dict
          [("connections", PyData.dict
              [("c1", PyData.dict
                  [("api_key", PyData.str "v"),
                   ("nested", PyData.dict [("x", PyData.str "env:K")])])]),
           ("routing", PyData.dict [("*", PyData.str "env:K")])]
    ∧ mapStrLeaves (substEnvLeaf [("K", "v")])
        (PyData.dict
          [("connections", PyData.dict
              [("c1", PyData.dict
                  [("api_key", PyData.str "env:K"),
                   ("nested", PyData.dict [("x", PyData.str "env:K")])])]),
           ("routing", PyData.dict [("*", PyData.str "env:K")])])
      = PyData.dict
          [("connections", PyData.dict
              [("c1", PyData.dict
                  [("api_key", PyData.str "v"),
                   ("nested", PyData.dict [("x", PyData.str "v")])])]),
           ("routing", PyData.dict [("*", PyData.str "v")])]
    ∧ PyData.dict
          [("connections", PyData.dict
              [("c1", PyData.dict
                  [("api_key", PyData.str "v"),
                   ("nested", PyData.dict [("x", PyData.str "env:K")])])]),
           ("routing", PyData.dict [("*", PyData.str "env:K")])]
      ≠ PyData.dict
          [("connections", PyData.dict
              [("c1", PyData.dict
                  [("api_key", PyData.str "v"),
                   ("nested", PyData.dict [("x", PyData.str "v")])])]),
           ("routing", PyData.dict [("*", PyData.str "v")])] := by
  refine ⟨rfl, ?_, ?_⟩
  · simp [mapStrLeaves, mapStrEntries, mapStrItems, substEnvLeaf,
      pyStartsWith, pyDrop, envLookup]
  · intro h
    simp at h

/-! ## `resolve_obj_path` theorems -/

/-- C10: `resolve_obj_path` is total — every failure the source catches
is mapped to the default — and its value is exactly characterised: the
all-or-nothing resolution of the dotted path's segments (dict key, list
index via `int(part)`, or attribute, per `resolveStep`) when every
segment resolves, and the given default as soon as any segment fails. -/
theorem c10_resolve_obj_path (obj : PyObj) (path : String) (default : PyObj) :
    resolve_obj_path obj path default
      = (chasePath obj (path.splitOn ".")).getD default := by
  unfold resolve_obj_path
  generalize path.splitOn "." = parts
  induction parts generalizing obj with
  | nil => rfl
  | cons p ps ih =>
    cases hst : resolveStep obj p with
    | none => simp [resolvePathLoop, chasePath, hst]
    | some o2 => simp [resolvePathLoop, chasePath, hst, ih]

end LMProxy
